import Mathlib

/-!
# Verification of the Hypno real-time audio core

Shallow embedding of the repository's audio engine:

* the playback scheduler for streamed speech chunks (the `onmessage`
  handler of the live-session component): time cursor, active source
  set, model state, interruption handling;
* the `LyriaEngine` synthesis engine (`play` / `stop` / `destroy` /
  `setVolume`): node lifecycle, ambient-noise buffer generation,
  binaural channel wiring, isochronic gain modulation.

Times and sample values are rationals; the sequential event handlers of
the source are modelled as pure state transformers.
-/

namespace Hypno

/-! ## Playback scheduler (LiveSession `onmessage` handler)

State mirrored from the component refs:
`nextStartTimeRef` (the cursor), `sourcesRef` (a set of scheduled
buffer sources, each with its start and end time), and the
`modelState` React state (`idle` / `listening` / `speaking`). -/

/-- A scheduled speech-audio buffer source: an opaque id plus its
scheduled start and end times. -/
structure Source where
  id : Nat
  startAt : ℚ
  endAt : ℚ
deriving DecidableEq, Repr

/-- The `modelState` value of the live-session component. -/
inductive ModelState where
  | idle
  | listening
  | speaking
deriving DecidableEq, Repr

/-- Scheduler state: the time cursor `nextStartTimeRef`, the active
source set `sourcesRef`, the UI model state, and a fresh-id counter for
newly created buffer sources. -/
structure SchedState where
  cursor : ℚ
  sources : List Source
  modelState : ModelState
  nextId : Nat
deriving DecidableEq, Repr

/-- The scheduler state right after the session opens: cursor 0, no
sources, `listening`. -/
def schedInit : SchedState :=
  { cursor := 0, sources := [], modelState := .listening, nextId := 0 }

/-- Handler for an inbound audio chunk, translated from the
`if (audioData)` branch of `onmessage`:
set model state to `speaking`; bump the cursor to
`max(nextStartTime, ctx.currentTime)`; decode; on success create a
buffer source starting at the cursor, advance the cursor by the
buffer's duration and add the source to the set.  `decoded = none`
models a decode failure: the handler has already set the state and
bumped the cursor when `decodeAudioData` rejects, and then stops. -/
def handleChunk (now : ℚ) (decoded : Option ℚ) (s : SchedState) : SchedState :=
  let s1 : SchedState := { s with modelState := .speaking, cursor := max s.cursor now }
  match decoded with
  | none => s1
  | some d =>
      let src : Source := { id := s1.nextId, startAt := s1.cursor, endAt := s1.cursor + d }
      { s1 with
          cursor := s1.cursor + d
          sources := s1.sources ++ [src]
          nextId := s1.nextId + 1 }

/-- Successful scheduling of a chunk of duration `d` arriving at time
`now`; also returns the start time passed to `source.start`. -/
def scheduleChunk (now d : ℚ) (s : SchedState) : SchedState × ℚ :=
  (handleChunk now (some d) s, max s.cursor now)

/-- `onended` callback of a buffer source: remove the source from the
set; if the set became empty, flip the model state to `listening`. -/
def handleEnded (srcId : Nat) (s : SchedState) : SchedState :=
  let remaining := s.sources.filter (fun src => src.id ≠ srcId)
  if remaining.isEmpty then
    { s with sources := remaining, modelState := .listening }
  else
    { s with sources := remaining }

/-- Interruption handler, translated from the
`if (message.serverContent?.interrupted)` branch: stop every source in
the set, clear the set, reset the cursor to `ctx.currentTime`, set the
model state to `listening`.  The list of sources that received `stop()`
is returned alongside the new state. -/
def handleInterrupt (now : ℚ) (s : SchedState) : SchedState × List Source :=
  ({ s with sources := [], cursor := now, modelState := .listening }, s.sources)

/-! ### Runs of the scheduler -/

/-- Schedule a list of `(arrival time, duration)` chunks in order,
collecting the start time of each. -/
def runSchedule (s : SchedState) : List (ℚ × ℚ) → List ℚ
  | [] => []
  | (t, d) :: rest =>
      let (s', st) := scheduleChunk t d s
      st :: runSchedule s' rest

/-- Arrival discipline of the gapless-scheduling property: every chunk
after the first arrives no later than its predecessor's scheduled end,
i.e. no later than the cursor value left by the predecessor. -/
def arrivalsTimely (s : SchedState) : List (ℚ × ℚ) → Prop
  | [] => True
  | (t, d) :: rest =>
      let s' := (scheduleChunk t d s).1
      (match rest with
       | [] => True
       | (t', _) :: _ => t' ≤ s'.cursor) ∧ arrivalsTimely s' rest

/-- Consecutive start times differ by exactly the earlier chunk's
duration: `start_{i+1} = start_i + d_i` for the paired lists. -/
def gapless : List ℚ → List ℚ → Prop
  | st₁ :: st₂ :: sts, d :: ds => st₂ = st₁ + d ∧ gapless (st₂ :: sts) ds
  | _, _ => True

lemma scheduleChunk_start (now d : ℚ) (s : SchedState) :
    (scheduleChunk now d s).2 = max s.cursor now := rfl

lemma scheduleChunk_cursor (now d : ℚ) (s : SchedState) :
    ((scheduleChunk now d s).1).cursor = max s.cursor now + d := rfl

lemma runSchedule_cons (t d : ℚ) (s : SchedState) (rest : List (ℚ × ℚ)) :
    runSchedule s ((t, d) :: rest) =
      max s.cursor t :: runSchedule (scheduleChunk t d s).1 rest := rfl

lemma gapless_of_arrivalsTimely (s : SchedState) (chunks : List (ℚ × ℚ))
    (h : arrivalsTimely s chunks) :
    gapless (runSchedule s chunks) (chunks.map Prod.snd) := by
  induction chunks generalizing s with
  | nil => trivial
  | cons hd rest ih =>
      obtain ⟨t, d⟩ := hd
      obtain ⟨hhd, htl⟩ := h
      cases rest with
      | nil => trivial
      | cons hd' rest' =>
          obtain ⟨t', d'⟩ := hd'
          have hle : t' ≤ ((scheduleChunk t d s).1).cursor := hhd
          rw [runSchedule_cons, runSchedule_cons]
          refine ⟨?_, ?_⟩
          · rw [scheduleChunk_cursor] at hle
            rw [scheduleChunk_cursor, max_eq_left hle]
          · have := ih (scheduleChunk t d s).1 htl
            rw [runSchedule_cons] at this
            exact this

/-- C1.  Gapless scheduling: on each arriving speech chunk the handler
computes `cursor' = max(cursor, now)`, starts the chunk at `cursor'`
and leaves the cursor at `cursor' + d`; consequently, for any sequence
of chunks each arriving no later than its predecessor's scheduled end,
consecutive start times satisfy `start_{i+1} = start_i + d_i` exactly —
no gap and no overlap. -/
theorem C1_gapless_scheduling :
    (∀ (s : SchedState) (now d : ℚ),
        (scheduleChunk now d s).2 = max s.cursor now ∧
        ((scheduleChunk now d s).1).cursor = (scheduleChunk now d s).2 + d) ∧
    (∀ (s : SchedState) (chunks : List (ℚ × ℚ)),
        arrivalsTimely s chunks →
        gapless (runSchedule s chunks) (chunks.map Prod.snd)) := by
  constructor
  · intro s now d
    exact ⟨rfl, rfl⟩
  · intro s chunks h
    exact gapless_of_arrivalsTimely s chunks h

/-- Witness for C1 on a concrete run: three chunks of durations
1, 2, 1 arriving at times 0, 1/2, 5/2 — each before its predecessor's
scheduled end — are scheduled back-to-back at start times 0, 1, 3. -/
theorem C1_gapless_scheduling_witness :
    arrivalsTimely schedInit [((0 : ℚ), (1 : ℚ)), (1/2, 2), (5/2, 1)] ∧
    gapless (runSchedule schedInit [((0 : ℚ), (1 : ℚ)), (1/2, 2), (5/2, 1)])
      ([((0 : ℚ), (1 : ℚ)), (1/2, 2), (5/2, 1)].map Prod.snd) := by
  have h : arrivalsTimely schedInit [((0 : ℚ), (1 : ℚ)), (1/2, 2), (5/2, 1)] := by
    refine ⟨?_, ?_, ?_, trivial⟩ <;> norm_num [scheduleChunk_cursor, schedInit]
  exact ⟨h, C1_gapless_scheduling.2 schedInit _ h⟩

/-- A scheduler state with one active chunk, as reached after one
successful `handleChunk` from `schedInit`. -/
def sampleBusy : SchedState :=
  { cursor := 1, sources := [{ id := 0, startAt := 0, endAt := 1 }],
    modelState := .speaking, nextId := 1 }

/-- C2, counterexample.  Interrupting with zero active chunks is not a
cursor-preserving no-op: in the initial state (empty source set,
cursor 0) an interruption arriving at time 5 moves the cursor to 5. -/
theorem C2_interrupt_cursor_changes :
    schedInit.sources = [] ∧
    (handleInterrupt 5 schedInit).1.cursor ≠ schedInit.cursor := by
  refine ⟨rfl, ?_⟩
  norm_num [handleInterrupt, schedInit]

/-- C2, amended.  An interruption always stops exactly the sources in
the set (none when it is empty), clears the set, resets the cursor to
`now` and flips the state to `listening`; a chunk scheduled immediately
afterwards starts at that reset cursor; and whenever `cursor ≤ now`
(which holds in any real run with an empty set), any chunk arriving at
`t ≥ now` starts at the same time with or without the interruption —
so the zero-chunk interruption changes the stored cursor but never an
actual start time. -/
theorem C2_interrupt_idempotence (s : SchedState) (now : ℚ) :
    ((handleInterrupt now s).2 = s.sources ∧
     (handleInterrupt now s).1.sources = [] ∧
     (handleInterrupt now s).1.cursor = now ∧
     (handleInterrupt now s).1.modelState = .listening) ∧
    (∀ d : ℚ, (scheduleChunk now d (handleInterrupt now s).1).2 = now) ∧
    (s.cursor ≤ now → ∀ t d : ℚ, now ≤ t →
      (scheduleChunk t d (handleInterrupt now s).1).2 =
        (scheduleChunk t d s).2) := by
  refine ⟨⟨rfl, rfl, rfl, rfl⟩, ?_, ?_⟩
  · intro d
    simp [scheduleChunk_start, handleInterrupt]
  · intro hcn t d hnt
    rw [scheduleChunk_start, scheduleChunk_start]
    show max now t = max s.cursor t
    rw [max_eq_right hnt, max_eq_right (le_trans hcn hnt)]

/-- Witness for C2 at a concrete input: interrupting `sampleBusy`
(one active chunk, cursor 1) at time 5 stops that chunk, clears the
set, resets the cursor to 5, and a chunk of duration 2 scheduled at
time 6 starts at 6 with or without the interruption. -/
theorem C2_interrupt_idempotence_witness :
    (handleInterrupt 5 sampleBusy).2 = sampleBusy.sources ∧
    (handleInterrupt 5 sampleBusy).1.sources = [] ∧
    (scheduleChunk 6 2 (handleInterrupt 5 sampleBusy).1).2 =
      (scheduleChunk 6 2 sampleBusy).2 := by
  obtain ⟨⟨h1, h2, -, -⟩, -, h3⟩ := C2_interrupt_idempotence sampleBusy 5
  exact ⟨h1, h2, h3 (by norm_num [sampleBusy]) 6 2 (by norm_num)⟩

/-! ### State derivation (C3) -/

/-- The scheduler events the live-session handler reacts to: a
successfully decoded chunk, the natural end of a source, and an
interruption. -/
inductive SchedEvent where
  | chunk (now d : ℚ)
  | ended (srcId : Nat)
  | interrupt (now : ℚ)

/-- One handler invocation. -/
def schedStep (e : SchedEvent) (s : SchedState) : SchedState :=
  match e with
  | .chunk now d => handleChunk now (some d) s
  | .ended i => handleEnded i s
  | .interrupt now => (handleInterrupt now s).1

/-- The state-derivation invariant: `speaking` exactly when the active
source set is non-empty, `listening` exactly when it is empty. -/
def stateDerived (s : SchedState) : Prop :=
  (s.modelState = .speaking ↔ s.sources ≠ []) ∧
  (s.modelState = .listening ↔ s.sources = [])

/-- A whole session: fold the events over the opening state. -/
def schedRun (events : List SchedEvent) : SchedState :=
  events.foldl (fun s e => schedStep e s) schedInit

lemma stateDerived_init : stateDerived schedInit := by
  constructor <;> simp [schedInit]

lemma stateDerived_step (e : SchedEvent) (s : SchedState)
    (h : stateDerived s) : stateDerived (schedStep e s) := by
  obtain ⟨hs, hl⟩ := h
  cases e with
  | chunk now d =>
      constructor <;> simp [schedStep, handleChunk]
  | ended i =>
      have hsrcs : (handleEnded i s).sources =
          s.sources.filter (fun src => src.id ≠ i) := by
        unfold handleEnded
        by_cases h : (s.sources.filter (fun src => src.id ≠ i)).isEmpty
        · rw [if_pos h]
        · rw [if_neg h]
      have hms : (handleEnded i s).modelState =
          if (s.sources.filter (fun src => src.id ≠ i)).isEmpty then
            ModelState.listening
          else s.modelState := by
        unfold handleEnded
        by_cases h : (s.sources.filter (fun src => src.id ≠ i)).isEmpty
        · rw [if_pos h, if_pos h]
        · rw [if_neg h, if_neg h]
      show stateDerived (handleEnded i s)
      by_cases hrem : (s.sources.filter (fun src => src.id ≠ i)).isEmpty
      · have hemp : s.sources.filter (fun src => src.id ≠ i) = [] :=
          List.isEmpty_iff.mp hrem
        constructor
        · rw [hsrcs, hms, if_pos hrem, hemp]
          simp
        · rw [hsrcs, hms, if_pos hrem, hemp]
          simp
      · have hne : s.sources.filter (fun src => src.id ≠ i) ≠ [] := by
          intro hc
          rw [hc] at hrem
          exact hrem rfl
        have hsrc : s.sources ≠ [] := by
          intro hc
          rw [hc] at hne
          exact hne rfl
        constructor
        · rw [hsrcs, hms, if_neg hrem]
          exact iff_of_true (hs.mpr hsrc) hne
        · rw [hsrcs, hms, if_neg hrem]
          exact iff_of_false (fun hlst => hsrc (hl.mp hlst)) hne

  | interrupt now =>
      constructor <;> simp [schedStep, handleInterrupt]

/-- C3.  State derivation invariant: from the opening state, every
session built from chunk-scheduling, natural-completion and
interruption events satisfies "speaking ⇔ ActiveSourceSet non-empty"
and "listening ⇔ ActiveSourceSet empty" at every point; in particular
the invariant is preserved by every single event. -/
theorem C3_state_derivation :
    (∀ (e : SchedEvent) (s : SchedState),
        stateDerived s → stateDerived (schedStep e s)) ∧
    (∀ events : List SchedEvent, stateDerived (schedRun events)) := by
  have hstep := stateDerived_step
  refine ⟨hstep, ?_⟩
  intro events
  rw [schedRun]
  induction events using List.reverseRecOn with
  | nil => exact stateDerived_init
  | append_singleton es e ih =>
      rw [List.foldl_append]
      exact hstep e _ ih

/-- Witness for C3: the invariant is preserved when the single chunk of
`sampleBusy` (which satisfies the invariant) ends naturally. -/
theorem C3_state_derivation_witness :
    stateDerived sampleBusy ∧ stateDerived (schedStep (.ended 0) sampleBusy) := by
  have hb : stateDerived sampleBusy := by
    constructor <;> simp [sampleBusy]
  exact ⟨hb, C3_state_derivation.1 (.ended 0) sampleBusy hb⟩

/-! ### Decode failure (C9) -/

/-- C9, counterexample.  A chunk whose payload fails to decode can
advance the cursor: in the initial state (cursor 0) a failing chunk
arriving at time 5 leaves the cursor at 5, because the handler bumps
the cursor to `max(cursor, now)` before attempting the decode. -/
theorem C9_decode_failure_moves_cursor :
    (handleChunk 5 none schedInit).cursor ≠ schedInit.cursor := by
  norm_num [handleChunk, schedInit]

/-- C9, amended.  A decode failure drops the chunk: the source set and
the id counter are untouched, so no in-flight chunk is affected; but
the handler has already bumped the cursor to `max(cursor, now)` and set
the model state to `speaking` before the decode failed.  The bump is
harmless: any chunk scheduled afterwards at a time `t ≥ now` reaches
exactly the same scheduler state, and the same start time, as if the
failing chunk had never arrived. -/
theorem C9_decode_failure_isolation (s : SchedState) (now : ℚ) :
    (handleChunk now none s).sources = s.sources ∧
    (handleChunk now none s).nextId = s.nextId ∧
    (handleChunk now none s).cursor = max s.cursor now ∧
    (handleChunk now none s).modelState = .speaking ∧
    (∀ t d : ℚ, now ≤ t →
      (scheduleChunk t d (handleChunk now none s)).2 =
        (scheduleChunk t d s).2 ∧
      (scheduleChunk t d (handleChunk now none s)).1 =
        (scheduleChunk t d s).1) := by
  refine ⟨rfl, rfl, rfl, rfl, ?_⟩
  intro t d hnt
  have hmax : max (max s.cursor now) t = max s.cursor t := by
    rw [max_assoc, max_eq_right hnt]
  constructor
  · rw [scheduleChunk_start, scheduleChunk_start]
    show max (max s.cursor now) t = max s.cursor t
    exact hmax
  · simp [scheduleChunk, handleChunk, hmax]

/-- Witness for C9: after a decode failure at time 5 in the initial
state, a chunk of duration 2 arriving at time 6 is scheduled exactly as
it would have been without the failure. -/
theorem C9_decode_failure_isolation_witness :
    (handleChunk 5 none schedInit).sources = schedInit.sources ∧
    (scheduleChunk 6 2 (handleChunk 5 none schedInit)).1 =
      (scheduleChunk 6 2 schedInit).1 := by
  obtain ⟨h1, -, -, -, h5⟩ := C9_decode_failure_isolation schedInit 5
  exact ⟨h1, (h5 6 2 (by norm_num)).2⟩

/-! ## LyriaEngine (the synthesis engine)

Embedding of the `LyriaEngine` class: the nullable audio context and
master gain, the five tracked node fields, and — to reason about node
leaks — the multiset of started-and-not-yet-stopped source/oscillator
nodes (`running`), each identified by a fresh id and its kind. -/

/-- The kinds of nodes that `play` starts.  `filterLFO` is the ambient
filter's modulation oscillator, held only in a local variable of
`play`; the other five are stored in fields of the class. -/
inductive NodeKind where
  | ambientSource
  | filterLFO
  | binauralLeft
  | binauralRight
  | isochronicOsc
  | isochronicLFO
deriving DecidableEq, Repr

/-- An `AudioParam` of a gain node: its static value plus the pending
`setTargetAtTime` target, if any. -/
structure GainParam where
  value : ℚ
  target : Option ℚ
deriving DecidableEq, Repr

/-- The engine's `play` configuration (the `theme` tag does not affect
the signal math and is omitted). -/
structure Config where
  binauralFreq : ℚ
  baseFreq : ℚ
  isochronic : Bool
deriving DecidableEq, Repr

/-- State of a `LyriaEngine` instance. -/
structure EngineState where
  ctx : Bool
  masterGain : Option GainParam
  ambientSource : Option Nat
  binauralLeft : Option Nat
  binauralRight : Option Nat
  isochronicOsc : Option Nat
  isochronicLFO : Option Nat
  isPlaying : Bool
  running : List (Nat × NodeKind)
  nextId : Nat
deriving DecidableEq, Repr

/-- A freshly constructed engine: nothing initialized (the constructor
defers everything to `play`). -/
def engineNew : EngineState :=
  { ctx := false, masterGain := none, ambientSource := none,
    binauralLeft := none, binauralRight := none, isochronicOsc := none,
    isochronicLFO := none, isPlaying := false, running := [], nextId := 0 }

/-- `init`: create the context and the master gain at the default
volume 0.5. -/
def engineInit (s : EngineState) : EngineState :=
  { s with ctx := true, masterGain := some { value := 1/2, target := none } }

/-- Stop the node held in a tracked slot (a no-op when the slot is
empty, and stopping an already-stopped id removes nothing — the
`try { node.stop() } catch {}` idiom). -/
def stopSlot (slot : Option Nat) (running : List (Nat × NodeKind)) :
    List (Nat × NodeKind) :=
  match slot with
  | none => running
  | some i => running.filter (fun r => r.1 ≠ i)

/-- `stop`: clear `isPlaying`, then stop-and-null each of the five
tracked node fields.  The ambient filter LFO is not a field, so it is
not stopped here. -/
def engineStop (s : EngineState) : EngineState :=
  let r1 := stopSlot s.ambientSource s.running
  let r2 := stopSlot s.binauralLeft r1
  let r3 := stopSlot s.binauralRight r2
  let r4 := stopSlot s.isochronicOsc r3
  let r5 := stopSlot s.isochronicLFO r4
  { s with
    isPlaying := false
    running := r5
    ambientSource := none
    binauralLeft := none
    binauralRight := none
    isochronicOsc := none
    isochronicLFO := none }

/-- Start a node of the given kind: it joins the running multiset under
a fresh id, which is returned. -/
def startNode (k : NodeKind) (s : EngineState) : EngineState × Nat :=
  ({ s with running := s.running ++ [(s.nextId, k)], nextId := s.nextId + 1 },
    s.nextId)

/-- `play`: lazily `init` if there is no context yet, `stop()` to clear
the previous run, mark playing, then build and start the layers in
source order — the ambient filter LFO (local variable, untracked), the
ambient buffer source, the two binaural oscillators, and, when
`config.isochronic` is set, the isochronic carrier and its square-wave
LFO. -/
def enginePlay (cfg : Config) (s : EngineState) : EngineState :=
  let s0 := if s.ctx then s else engineInit s
  let s1 := engineStop s0
  let s2 := { s1 with isPlaying := true }
  let p3 := startNode .filterLFO s2
  let p4 := startNode .ambientSource p3.1
  let s4 := { p4.1 with ambientSource := some p4.2 }
  let p5 := startNode .binauralLeft s4
  let s5 := { p5.1 with binauralLeft := some p5.2 }
  let p6 := startNode .binauralRight s5
  let s6 := { p6.1 with binauralRight := some p6.2 }
  if cfg.isochronic then
    let p7 := startNode .isochronicOsc s6
    let s7 := { p7.1 with isochronicOsc := some p7.2 }
    let p8 := startNode .isochronicLFO s7
    { p8.1 with isochronicLFO := some p8.2 }
  else
    s6

/-- The single failure an engine operation can hit in this model:
dereferencing the null context (`this.ctx!`) after `destroy`. -/
inductive EngineErr where
  | nullContext
deriving DecidableEq, Repr

/-- `setVolume`: guarded on `masterGain`; when present it calls
`setTargetAtTime(val, this.ctx!.currentTime, 0.1)`, which dereferences
the context — a null context makes the call throw. -/
def engineSetVolume (v : ℚ) (s : EngineState) : Except EngineErr EngineState :=
  match s.masterGain with
  | none => .ok s
  | some g =>
      if s.ctx then
        .ok { s with masterGain := some { g with target := some v } }
      else
        .error .nullContext

/-- `destroy`: `stop`, then close and null the context.  `masterGain`
is not cleared. -/
def engineDestroy (s : EngineState) : EngineState :=
  let s1 := engineStop s
  if s1.ctx then { s1 with ctx := false } else s1

/-- Number of running (started, not stopped) nodes of a given kind. -/
def countKind (k : NodeKind) (s : EngineState) : Nat :=
  (s.running.filter (fun r => r.2 = k)).length

/-- A sample configuration (4 Hz offset over a 200 Hz carrier, with
isochronic tones). -/
def cfgSample : Config := { binauralFreq := 4, baseFreq := 200, isochronic := true }

lemma engineStop_ctx (s : EngineState) : (engineStop s).ctx = s.ctx := rfl

lemma engineStop_masterGain (s : EngineState) :
    (engineStop s).masterGain = s.masterGain := rfl

lemma engineDestroy_ctx (s : EngineState) : (engineDestroy s).ctx = false := by
  unfold engineDestroy
  by_cases h : (engineStop s).ctx
  · rw [if_pos h]
  · rw [if_neg h]
    exact Bool.not_eq_true _ ▸ Bool.of_not_eq_true h

lemma engineDestroy_masterGain (s : EngineState) :
    (engineDestroy s).masterGain = s.masterGain := by
  unfold engineDestroy
  by_cases h : (engineStop s).ctx
  · rw [if_pos h]
    exact engineStop_masterGain s
  · rw [if_neg h]
    exact engineStop_masterGain s

lemma enginePlay_ctx (cfg : Config) (s : EngineState) :
    (enginePlay cfg s).ctx = true := by
  unfold enginePlay startNode engineStop engineInit
  by_cases h : s.ctx <;> cases hiso : cfg.isochronic <;> simp [h, hiso]

lemma engineStop_of_cleared (s : EngineState)
    (ha : s.ambientSource = none) (hl : s.binauralLeft = none)
    (hr : s.binauralRight = none) (ho : s.isochronicOsc = none)
    (hf : s.isochronicLFO = none) (hp : s.isPlaying = false) :
    engineStop s = s := by
  cases s
  simp_all [engineStop, stopSlot]

lemma engineDestroy_cleared (s : EngineState) :
    (engineDestroy s).ambientSource = none ∧
    (engineDestroy s).binauralLeft = none ∧
    (engineDestroy s).binauralRight = none ∧
    (engineDestroy s).isochronicOsc = none ∧
    (engineDestroy s).isochronicLFO = none ∧
    (engineDestroy s).isPlaying = false := by
  unfold engineDestroy
  by_cases h : (engineStop s).ctx
  · rw [if_pos h]
    exact ⟨rfl, rfl, rfl, rfl, rfl, rfl⟩
  · rw [if_neg h]
    exact ⟨rfl, rfl, rfl, rfl, rfl, rfl⟩

/-- C4.  The code contradicts the no-leak claim: starting from a fresh
engine, two consecutive `play` calls leave two running instances of the
ambient filter's modulation LFO — `play` starts that oscillator but
keeps it only in a local variable, so the `stop` performed by the
second `play` cannot stop it.  Every node tracked in a field is
correctly reduced to a single instance. -/
theorem C4_double_play_leaks_filter_lfo :
    countKind .filterLFO (enginePlay cfgSample (enginePlay cfgSample engineNew)) = 2 ∧
    countKind .ambientSource (enginePlay cfgSample (enginePlay cfgSample engineNew)) = 1 ∧
    countKind .binauralLeft (enginePlay cfgSample (enginePlay cfgSample engineNew)) = 1 ∧
    countKind .binauralRight (enginePlay cfgSample (enginePlay cfgSample engineNew)) = 1 ∧
    countKind .isochronicOsc (enginePlay cfgSample (enginePlay cfgSample engineNew)) = 1 ∧
    countKind .isochronicLFO (enginePlay cfgSample (enginePlay cfgSample engineNew)) = 1 := by
  decide

/-- C8, counterexample.  After `destroy`, `play` does not fail fast: it
silently re-creates the rendering context (lazy `init`) and starts
playing again. -/
theorem C8_destroy_then_play_recreates_context :
    (engineDestroy (enginePlay cfgSample engineNew)).ctx = false ∧
    (enginePlay cfgSample (engineDestroy (enginePlay cfgSample engineNew))).ctx = true ∧
    (enginePlay cfgSample (engineDestroy (enginePlay cfgSample engineNew))).isPlaying = true := by
  decide

/-- C8, amended.  `destroy` stops the layers and nulls the context but
leaves `masterGain` set; afterwards `play` silently re-creates the
rendering context instead of failing, `stop` is a silent no-op, and
only `setVolume` fails — it throws a null-context error on any engine
that had been initialized, by accident of the surviving `masterGain`
guard rather than by a fail-fast check. -/
theorem C8_post_destroy_behavior (s : EngineState) (cfg : Config) (v : ℚ) :
    (engineDestroy s).ctx = false ∧
    (enginePlay cfg (engineDestroy s)).ctx = true ∧
    engineStop (engineDestroy s) = engineDestroy s ∧
    (∀ g : GainParam, s.masterGain = some g →
      engineSetVolume v (engineDestroy s) = .error .nullContext) := by
  obtain ⟨ha, hl, hr, ho, hf, hp⟩ := engineDestroy_cleared s
  refine ⟨engineDestroy_ctx s, enginePlay_ctx cfg _,
    engineStop_of_cleared _ ha hl hr ho hf hp, ?_⟩
  intro g hg
  have hmg : (engineDestroy s).masterGain = some g := by
    rw [engineDestroy_masterGain, hg]
  have hctx := engineDestroy_ctx s
  simp [engineSetVolume, hmg, hctx]

/-- Witness for C8 at a concrete input: on an engine that played once
and was destroyed, `setVolume 3/10` throws the null-context error while
`play` happily re-creates the context. -/
theorem C8_post_destroy_behavior_witness :
    engineSetVolume (3/10) (engineDestroy (enginePlay cfgSample engineNew)) =
      .error .nullContext ∧
    (enginePlay cfgSample (engineDestroy (enginePlay cfgSample engineNew))).ctx = true := by
  obtain ⟨-, h2, -, h4⟩ :=
    C8_post_destroy_behavior (enginePlay cfgSample engineNew) cfgSample (3/10)
  exact ⟨h4 { value := 1/2, target := none } rfl, h2⟩

/-- C10.  Calling `setVolume v` before the first `play` (no context,
no master gain yet) returns without error and changes nothing — `v` is
not stored anywhere — and when `play` later creates the context the
master output gain starts at the fixed default 0.5 with no pending
ramp, regardless of `v`. -/
theorem C10_setVolume_before_first_play (v : ℚ) (cfg : Config) :
    engineSetVolume v engineNew = .ok engineNew ∧
    (enginePlay cfg engineNew).masterGain = some { value := 1/2, target := none } := by
  refine ⟨rfl, ?_⟩
  unfold enginePlay startNode engineStop engineInit
  cases hiso : cfg.isochronic <;> simp [engineNew, hiso]

/-! ## Ambient noise buffer (C6)

The noise-generation loop of `play`: one `lastOut` variable declared
outside the per-channel loop, per sample
`out = (lastOut + 0.02·white)/1.02`, `lastOut = out`, stored sample
`out · 3.5`, run first over channel 0 and then over channel 1 with the
random draws taken in sequence from one stream. -/

/-- One step of the pink-leaning smoothing recurrence. -/
def noiseStep (prev white : ℚ) : ℚ := (prev + 0.02 * white) / 1.02

/-- Fill one channel: `start` indexes the position in the random
stream, `prev` is the incoming `lastOut`; returns the stored samples
(after the 3.5 gain compensation) and the final `lastOut` (taken
before the compensation, as in the source). -/
def runChannel (white : ℕ → ℚ) : ℕ → ℚ → ℕ → (List ℚ × ℚ)
  | _start, prev, 0 => ([], prev)
  | start, prev, Nat.succ k =>
      let out := noiseStep prev (white start)
      let rest := runChannel white (start + 1) out k
      (3.5 * out :: rest.1, rest.2)

/-- The 2-channel noise buffer exactly as the source builds it:
channel 0 from `lastOut = 0`, then channel 1 continuing from channel
0's final `lastOut` (the variable is declared outside the channel
loop). -/
def genBuffer (white : ℕ → ℚ) (n : ℕ) : List ℚ × List ℚ :=
  let c0 := runChannel white 0 0 n
  let c1 := runChannel white n c0.2 n
  (c0.1, c1.1)

/-- Modelled from the spec's words, for comparison: the same recurrence
but "per channel, independently" — each channel's `prev` starting from
0. -/
def genBufferIndep (white : ℕ → ℚ) (n : ℕ) : List ℚ × List ℚ :=
  let c0 := runChannel white 0 0 n
  let c1 := runChannel white n 0 n
  (c0.1, c1.1)

/-- The value of `lastOut` after `k` samples, starting from `prev` at
stream position `start`. -/
def lastOutAfter (white : ℕ → ℚ) (start : ℕ) (prev : ℚ) : ℕ → ℚ
  | 0 => prev
  | Nat.succ k => noiseStep (lastOutAfter white start prev k) (white (start + k))

lemma lastOutAfter_shift (white : ℕ → ℚ) (start : ℕ) (prev : ℚ) (k : ℕ) :
    lastOutAfter white (start + 1) (noiseStep prev (white start)) k =
      lastOutAfter white start prev (k + 1) := by
  induction k with
  | zero => rfl
  | succ m ih =>
      show noiseStep (lastOutAfter white (start + 1) (noiseStep prev (white start)) m)
          (white (start + 1 + m)) = _
      rw [ih]
      show _ = noiseStep (lastOutAfter white start prev (m + 1)) (white (start + (m + 1)))
      have harg : start + 1 + m = start + (m + 1) := by omega
      rw [harg]

lemma runChannel_spec (white : ℕ → ℚ) (n : ℕ) :
    ∀ (start : ℕ) (prev : ℚ),
      (runChannel white start prev n).1 =
        (List.range n).map (fun i => 3.5 * lastOutAfter white start prev (i + 1)) ∧
      (runChannel white start prev n).2 = lastOutAfter white start prev n := by
  induction n with
  | zero => intro start prev; exact ⟨rfl, rfl⟩
  | succ m ih =>
      intro start prev
      obtain ⟨ih1, ih2⟩ := ih (start + 1) (noiseStep prev (white start))
      constructor
      · show 3.5 * noiseStep prev (white start) ::
            (runChannel white (start + 1) (noiseStep prev (white start)) m).1 = _
        rw [ih1, List.range_succ_eq_map, List.map_cons, List.map_map]
        congr 1
        apply List.map_congr_left
        intro i _
        show 3.5 * lastOutAfter white (start + 1) (noiseStep prev (white start)) (i + 1) =
          3.5 * lastOutAfter white start prev (i + 1 + 1)
        rw [lastOutAfter_shift]
      · show (runChannel white (start + 1) (noiseStep prev (white start)) m).2 = _
        rw [ih2, lastOutAfter_shift]

/-- C6, counterexample.  The two channels are not generated
independently: with the fixed random source `white ≡ 1` and a
one-sample buffer, channel 1's sample differs from what an independent
(`prev` reset to 0) generation would produce, because `lastOut` is
declared outside the channel loop and carries channel 0's final value
into channel 1. -/
theorem C6_channels_share_lastOut :
    (genBuffer (fun _ => (1 : ℚ)) 1).2 ≠ (genBufferIndep (fun _ => (1 : ℚ)) 1).2 := by
  norm_num [genBuffer, genBufferIndep, runChannel, noiseStep]

/-- C6, amended.  Each stored sample of each channel is
`3.5 · out_i` with `out_i` following the recurrence
`out = (prev + 0.02·white)/1.02` and `prev` persisting across the full
channel length; the random draws are consumed in sequence (channel 0
first, then channel 1), and channel 1's recurrence starts from channel
0's final `out` — not from 0 — since `lastOut` is shared between the
channels.  The buffer is a pure function of the random stream, so a
fixed stream reproduces the identical sample sequence. -/
theorem C6_noise_recurrence (white : ℕ → ℚ) (n : ℕ) :
    (genBuffer white n).1 =
      (List.range n).map (fun i => 3.5 * lastOutAfter white 0 0 (i + 1)) ∧
    (genBuffer white n).2 =
      (List.range n).map
        (fun i => 3.5 * lastOutAfter white n (lastOutAfter white 0 0 n) (i + 1)) := by
  obtain ⟨h01, h02⟩ := runChannel_spec white n 0 0
  obtain ⟨h11, -⟩ := runChannel_spec white n n (lastOutAfter white 0 0 n)
  refine ⟨h01, ?_⟩
  show (runChannel white n (runChannel white 0 0 n).2 n).1 = _
  rw [h02]
  exact h11

/-! ## Isochronic layer (C5)

When `config.isochronic` is set, `play` builds: a 150 Hz sine carrier
into `isoGain`; a square-wave LFO at `config.binauralFreq`; the LFO
connected to `isoGain.gain` twice — once through `lfoGainNode` (gain
1.0, lines 128–129 of the engine) and once directly (line 141) — with
`isoGain.gain.value = 0`.  Per Web Audio semantics the effective value
of an `AudioParam` is its static value plus the sum of all connected
inputs, with no clamping of negative gains. -/

/-- Ideal unit square wave at frequency `f`: +1 on the first half of
each period, −1 on the second. -/
def squareWave (f t : ℚ) : ℚ :=
  if Int.fract (f * t) < 1/2 then 1 else -1

/-- Static value of `isoGain.gain` (set to 0 in the source). -/
def isoGainStatic : ℚ := 0

/-- Gain of the intermediate `lfoGainNode` (1.0 in the source). -/
def lfoGainNodeGain : ℚ := 1

/-- Effective value of `isoGain.gain` at time `t`: the static level
plus the LFO arriving through `lfoGainNode` plus the LFO arriving
through the direct connection; 0 when the layer is disabled (none of
its nodes exist). -/
def isoEffectiveGain (cfg : Config) (t : ℚ) : ℚ :=
  if cfg.isochronic then
    isoGainStatic + lfoGainNodeGain * squareWave cfg.binauralFreq t +
      squareWave cfg.binauralFreq t
  else 0

/-- C5, counterexample.  During the square wave's negative half the
isochronic gain is −2, not 0: at `t = 3/16` with a 4 Hz modulator the
square wave is at −1 and the effective gain is −2, so the carrier is
audible (phase-inverted and at twice unit amplitude) — the audible
signal does not exist only in the positive half. -/
theorem C5_negative_half_not_silent :
    squareWave cfgSample.binauralFreq (3/16) = -1 ∧
    isoEffectiveGain cfgSample (3/16) = -2 ∧ (-2 : ℚ) ≠ 0 := by
  have hfr : Int.fract ((4 : ℚ) * (3/16)) = 3/4 := by
    norm_num [Int.fract]
  have hsq : squareWave cfgSample.binauralFreq (3/16) = -1 := by
    rw [squareWave]
    show (if Int.fract ((4 : ℚ) * (3/16)) < 1/2 then (1 : ℚ) else -1) = -1
    rw [hfr, if_neg (by norm_num)]
  refine ⟨hsq, ?_, by norm_num⟩
  have hiso : cfgSample.isochronic = true := rfl
  rw [isoEffectiveGain, if_pos hiso]
  show isoGainStatic + lfoGainNodeGain * squareWave cfgSample.binauralFreq (3/16) +
      squareWave cfgSample.binauralFreq (3/16) = -2
  rw [hsq, isoGainStatic, lfoGainNodeGain]
  norm_num

/-- C5, amended.  With `isochronicEnabled` the gain stage's static
level is 0 and the square-wave modulator at `binauralOffsetHz` is
connected directly to the gain input — but it is also connected a
second time through a unity gain node, so the effective gain is
`2·square(t)`: +2 during the positive half and −2 (phase inversion at
full amplitude, not silence) during the negative half, alternating at
`binauralOffsetHz`.  With the layer disabled, no isochronic energy is
present. -/
theorem C5_isochronic_gating (cfg : Config) (t : ℚ) :
    (cfg.isochronic = true →
      isoGainStatic = 0 ∧
      isoEffectiveGain cfg t = 2 * squareWave cfg.binauralFreq t ∧
      (Int.fract (cfg.binauralFreq * t) < 1/2 → isoEffectiveGain cfg t = 2) ∧
      (1/2 ≤ Int.fract (cfg.binauralFreq * t) → isoEffectiveGain cfg t = -2)) ∧
    (cfg.isochronic = false → isoEffectiveGain cfg t = 0) := by
  constructor
  · intro hiso
    have hgain : isoEffectiveGain cfg t = 2 * squareWave cfg.binauralFreq t := by
      rw [isoEffectiveGain, if_pos hiso, isoGainStatic, lfoGainNodeGain]
      ring
    refine ⟨rfl, hgain, ?_, ?_⟩
    · intro hpos
      rw [hgain, squareWave, if_pos hpos]
      norm_num
    · intro hneg
      rw [hgain, squareWave, if_neg (not_lt.mpr hneg)]
      norm_num
  · intro hiso
    rw [isoEffectiveGain, if_neg]
    rw [hiso]
    exact Bool.false_ne_true

/-- Witness for C5 at a concrete input: for the sample configuration
(4 Hz modulator) at `t = 1/16` the square wave is in its positive half
and the effective isochronic gain is 2. -/
theorem C5_isochronic_gating_witness :
    Int.fract (cfgSample.binauralFreq * (1/16 : ℚ)) < 1/2 ∧
    isoEffectiveGain cfgSample (1/16) = 2 := by
  have hfr : Int.fract (cfgSample.binauralFreq * (1/16 : ℚ)) < 1/2 := by
    show Int.fract ((4 : ℚ) * (1/16)) < 1/2
    norm_num [Int.fract]
  obtain ⟨h1, -⟩ := C5_isochronic_gating cfgSample (1/16)
  obtain ⟨-, -, h3, -⟩ := h1 rfl
  exact ⟨hfr, h3 hfr⟩

/-! ## Binaural layer (C7)

Lines 88–110 of the engine: a 2-channel merger, the left oscillator
(sine, `config.baseFreq`) connected to merger channel 0, the right
oscillator (sine, `config.baseFreq + config.binauralFreq`) connected to
merger channel 1, the merged stereo signal then attenuated (0.1) into
the master mix. -/

/-- An oscillator as configured by `play`: wave shape and frequency. -/
structure OscSpec where
  sine : Bool
  freq : ℚ
deriving DecidableEq, Repr

/-- The channel-assignment connections of the binaural layer — the two
`connect(merger, 0, c)` calls, pairing each oscillator with the merger
channel it feeds. -/
def binauralConnections (cfg : Config) : List (OscSpec × Nat) :=
  [({ sine := true, freq := cfg.baseFreq }, 0),
   ({ sine := true, freq := cfg.baseFreq + cfg.binauralFreq }, 1)]

/-- The oscillators feeding a given merger output channel. -/
def channelSources (cfg : Config) (c : Nat) : List OscSpec :=
  (binauralConnections cfg).filterMap
    (fun p => if p.2 = c then some p.1 else none)

/-- C7.  Binaural channel separation: for every configuration with
`baseFreq = f` and `binauralOffsetHz = b`, the left merger channel is
fed exactly by one pure sine at `f` and the right channel exactly by
one pure sine at `f + b`; no oscillator feeds both channels, so there
is zero cross-leakage at the mixing stage before attenuation. -/
theorem C7_binaural_channel_separation (f b : ℚ) (iso : Bool) :
    channelSources { binauralFreq := b, baseFreq := f, isochronic := iso } 0 =
      [{ sine := true, freq := f }] ∧
    channelSources { binauralFreq := b, baseFreq := f, isochronic := iso } 1 =
      [{ sine := true, freq := f + b }] := by
  constructor <;> rfl

end Hypno
